import Mathlib

/-
Verification of the NPMTI weather-data fetcher (src/fetch.py) against its
natural-language specification.

The embedding is shallow:
  * MongoDB documents are association lists from field names to values
    (`Doc`); the weather collection is a `List Doc` in insertion order.
  * `update_one(filter, {'$set': record}, upsert=True)` is `updateOne`:
    it applies `$set` field-by-field to the first matching document, or,
    when no document matches, inserts a new document built from the
    filter's equality fields with the `$set` fields applied.
  * Python `datetime.date` values are proleptic-Gregorian ordinals (`Int`,
    as returned by `date.toordinal`); `timedelta(days=n)` is addition.
  * The tenacity retry decorator on `fetch_api_data` is modelled by an
    explicit bounded-retry loop over a sequence of attempt results; each
    attempt either returns parsed JSON or raises an exception kind
    (`ReqError`).  `requests` exceptions (connection errors, timeouts and
    `HTTPError` raised by `raise_for_status`) satisfy
    `isRequestException`; `ReqError.other` stands for any exception not
    derived from `requests.exceptions.RequestException`.
  * The parsed upstream JSON is `ApiData`: either the expected nested
    path `properties.parameter` is absent (`malformed`) or it is a
    mapping from parameter code to a mapping from date string to value.
  * Date strings are kept as their `YYYYMMDD` text; `isValidYmd` models
    success of `datetime.strptime(s, '%Y%m%d')` on the canonical 8-digit
    form the upstream API emits.
-/

namespace NPMTI

/-- A BSON-ish value as stored by the script: null (Python `None`), a
string, a number, or a parsed `datetime` which we represent by the
`YYYYMMDD` string it was parsed from (distinct valid strings denote
distinct datetimes). -/
inductive BVal where
  | null : BVal
  | str : String → BVal
  | num : Int → BVal
  | date : String → BVal
deriving DecidableEq

/-- A MongoDB document: an association list of fields in insertion order,
mirroring a Python dict. -/
abbrev Doc := List (String × BVal)

/-- The parsed `properties.parameter` table: parameter code ↦
(date string ↦ value). -/
abbrev ParamData := List (String × List (String × BVal))

/-- Dictionary lookup on an association list (first binding wins, as in a
Python dict, whose keys are unique). -/
def lookupStr {α : Type} (k : String) : List (String × α) → Option α
  | [] => none
  | (k2, v) :: rest => if k2 = k then some v else lookupStr k rest

/-- Field access on a document. -/
def getField (k : String) (d : Doc) : Option BVal := lookupStr k d

/-- Dict assignment `d[k] = v`: replace in place if the key exists,
append otherwise (Python dicts keep the original position of an updated
key). This is also MongoDB's `$set` on a single field. -/
def setField (k : String) (v : BVal) : Doc → Doc
  | [] => [(k, v)]
  | (k2, v2) :: rest => if k2 = k then (k, v) :: rest else (k2, v2) :: setField k v rest

/-- Apply a list of `$set` fields to a document, left to right. -/
def applyFields (fs : List (String × BVal)) (d : Doc) : Doc :=
  fs.foldl (fun a kv => setField kv.1 kv.2 a) d

/-- The last binding of a key in a field list (later `$set`s win). -/
def lookupLast (k : String) : List (String × BVal) → Option BVal
  | [] => none
  | kv :: rest =>
    match lookupLast k rest with
    | some v => some v
    | none => if kv.1 = k then some kv.2 else none

/-- MongoDB equality-filter match: every filter field must be present
with the given value. -/
def docMatches (filt : List (String × BVal)) (d : Doc) : Bool :=
  filt.all (fun kv => decide (getField kv.1 d = some kv.2))

/-- `collection.update_one(filt, {'$set': rcd}, upsert=True)`: `$set`
the fields of `rcd` on the first matching document; if none matches,
insert a document made of the filter's equality fields with the `$set`
fields applied. -/
def updateOne (filt rcd : List (String × BVal)) : List Doc → List Doc
  | [] => [applyFields rcd filt]
  | d :: ds => if docMatches filt d then applyFields rcd d :: ds else d :: updateOne filt rcd ds

/-- Number of stored documents matching a filter. -/
def countMatches (filt : List (String × BVal)) (s : List Doc) : Nat :=
  (s.filter (fun d => docMatches filt d)).length

/-- The upsert key filter of the script: `{'fips_code': f, 'date': dv}`. -/
def keyFilter (f dv : BVal) : List (String × BVal) := [("fips_code", f), ("date", dv)]

/-- The store invariant claimed by the spec: at most one record per
`(location_id, date)` key. -/
def atMostOnePerKey (s : List Doc) : Prop :=
  ∀ f dv, countMatches (keyFilter f dv) s ≤ 1

/-- Gregorian leap-year test, as in Python's `calendar`/`datetime`. -/
def isLeap (y : Nat) : Bool := y % 4 == 0 && (y % 100 != 0 || y % 400 == 0)

/-- Days in a month of the proleptic Gregorian calendar. -/
def daysInMonth (y m : Nat) : Nat :=
  if m = 2 then (if isLeap y then 29 else 28)
  else if m = 4 ∨ m = 6 ∨ m = 9 ∨ m = 11 then 30
  else 31

/-- Days in the given year before the first of the given month. -/
def daysBeforeMonth (y m : Nat) : Nat :=
  (List.range (m - 1)).foldl (fun a i => a + daysInMonth y (i + 1)) 0

/-- Days before January 1 of the given year, counting from 0001-01-01 = day 1. -/
def daysBeforeYear (y : Nat) : Nat :=
  365 * (y - 1) + (y - 1) / 4 - (y - 1) / 100 + (y - 1) / 400

/-- Python's `datetime.date(y, m, d).toordinal()`: the embedding of a
calendar date as an integer day number. `timedelta` arithmetic on dates
is ordinary arithmetic on ordinals. -/
def toOrdinal (y m d : Nat) : Int :=
  ((daysBeforeYear y + daysBeforeMonth y m + d : Nat) : Int)

/-- `datetime.today().date() - timedelta(days=5*365)` from fetch.py line 92/96. -/
def five_years_ago (today : Int) : Int := today - 5 * 365

/-- The resolved window start (fetch.py lines 88-96): from the latest
stored date minus `re_fetch_days`, clamped below by the 5*365-day floor;
or the floor itself when nothing is stored. -/
def start_date_dt (today refetch : Int) : Option Int → Int
  | some latest => max (latest - refetch) (five_years_ago today)
  | none => five_years_ago today

/-- The resolved window end: yesterday (fetch.py line 99). -/
def end_date_dt (today : Int) : Int := today - 1

/-- The per-entity fetch window `[start, end]`. -/
def fetchWindow (today refetch : Int) (latest : Option Int) : Int × Int :=
  (start_date_dt today refetch latest, end_date_dt today)

/-- The `start_date_dt > end_date_dt` no-work test (fetch.py line 102). -/
def windowEmpty (w : Int × Int) : Bool := w.2 < w.1

/-- Exception kinds that `fetch_api_data` can raise: `requests`
connection errors and timeouts, `HTTPError` from `raise_for_status`
(carrying the status code), or any exception not derived from
`requests.exceptions.RequestException` (`other`). -/
inductive ReqError where
  | connectionError : ReqError
  | timeout : ReqError
  | httpStatus : Nat → ReqError
  | other : ReqError
deriving DecidableEq

/-- The tenacity predicate
`retry_if_exception_type(requests.exceptions.RequestException)`:
connection errors, timeouts and every `HTTPError` (4xx included) are
instances of `RequestException`. -/
def isRequestException : ReqError → Bool
  | .other => false
  | _ => true

/-- Membership in `requests.exceptions.HTTPError`, the class caught by
the dedicated `except` clause in `fetch_and_store_data`. -/
def isHTTPError : ReqError → Bool
  | .httpStatus _ => true
  | _ => false

/-- Parsed upstream JSON: either the `properties.parameter` path is
absent (`malformed`), or it holds a parameter table. -/
inductive ApiData where
  | malformed : ApiData
  | table : ParamData → ApiData
deriving DecidableEq

/-- One pass of the tenacity loop: run attempt `i`; on success return;
on a retryable exception move to the next attempt while retries remain;
with no retries left (or on a non-retryable exception) re-raise the most
recent exception (`reraise=True`). -/
def retryFrom (retryOn : ReqError → Bool) (att : Nat → Except ReqError ApiData)
    (i : Nat) : Nat → Except ReqError ApiData
  | 0 => att i
  | fuel + 1 =>
    match att i with
    | .ok a => .ok a
    | .error e => if retryOn e then retryFrom retryOn att (i + 1) fuel else .error e

/-- Number of attempts the tenacity loop performs. -/
def retryCountFrom (retryOn : ReqError → Bool) (att : Nat → Except ReqError ApiData)
    (i : Nat) : Nat → Nat
  | 0 => 1
  | fuel + 1 =>
    match att i with
    | .ok _ => 1
    | .error e => if retryOn e then 1 + retryCountFrom retryOn att (i + 1) fuel else 1

/-- `fetch_api_data` (fetch.py lines 61-70): `stop_after_attempt(5)`,
retry on `RequestException`, `reraise=True`.  `att i` is the result of
the `i`-th `requests.get` + `raise_for_status` + `.json()` attempt. -/
def fetch_api_data (att : Nat → Except ReqError ApiData) : Except ReqError ApiData :=
  retryFrom isRequestException att 0 4

/-- How many attempts `fetch_api_data` makes for a given attempt sequence. -/
def fetch_api_attempts (att : Nat → Except ReqError ApiData) : Nat :=
  retryCountFrom isRequestException att 0 4

/-- Python truthiness of the values a county field can hold: `None`,
empty strings and zero are falsy; parsed dates (datetime) are truthy. -/
def truthy : BVal → Bool
  | .null => false
  | .str s => s != ""
  | .num n => n != 0
  | .date _ => true

/-- A county document as consumed by `fetch_and_store_data`; each field
is the result of `county.get(...)`, with `BVal.null` standing for an
absent key (Python `None`). -/
structure County where
  county_name : BVal
  state_name : BVal
  fips_code : BVal
  latitude : BVal
  longitude : BVal
deriving DecidableEq

/-- The `all([county_name, state_name, fips_code, latitude, longitude])`
required-fields check (fetch.py line 81): Python `all` tests truthiness,
so a present-but-falsy field fails exactly like a missing one. -/
def fieldsOk (c : County) : Bool :=
  truthy c.county_name && truthy c.state_name && truthy c.fips_code &&
  truthy c.latitude && truthy c.longitude

/-- Numeric value of a decimal digit character. -/
def digitVal (ch : Char) : Nat := ch.toNat - 48

/-- Success of `datetime.strptime(s, '%Y%m%d')` on a canonical 8-digit
date string: four year digits (year ≥ 1), a valid month and a valid day. -/
def isValidYmd (s : String) : Bool :=
  match s.toList with
  | [y1, y2, y3, y4, m1, m2, d1, d2] =>
    (y1.isDigit && y2.isDigit && y3.isDigit && y4.isDigit &&
     m1.isDigit && m2.isDigit && d1.isDigit && d2.isDigit) &&
    (let y := 1000 * digitVal y1 + 100 * digitVal y2 + 10 * digitVal y3 + digitVal y4
     let m := 10 * digitVal m1 + digitVal m2
     let d := 10 * digitVal d1 + digitVal d2
     decide (1 ≤ y ∧ 1 ≤ m ∧ m ≤ 12 ∧ 1 ≤ d ∧ d ≤ daysInMonth y m))
  | _ => false

/-- Python's `str.lower()` on the parameter code (ASCII, as all NASA
POWER parameter codes are), mapped over the characters; equivalent to
`String.toLower` but defined through the character list so that it
evaluates inside the kernel. -/
def pyLower (s : String) : String := String.mk (s.data.map Char.toLower)

/-- The per-parameter lookup of fetch.py lines 136-141: `param_data =
parameters_data.get(param)`; if `param_data` is truthy (a non-empty
dict) and has the date, take that value, else `None`. An empty dict is
falsy, and a missing date yields `None`, so this collapses to: the value
under `param` and `ds` when both are present, `null` otherwise. -/
def paramValue (pd : ParamData) (p ds : String) : BVal :=
  match lookupStr p pd with
  | none => BVal.null
  | some m =>
    match lookupStr ds m with
    | none => BVal.null
    | some v => v

/-- The record dict before parameters are added (fetch.py lines 127-134). -/
def baseRecord (c : County) (ds : String) : Doc :=
  [("county_name", c.county_name), ("state_name", c.state_name),
   ("fips_code", c.fips_code), ("latitude", c.latitude),
   ("longitude", c.longitude), ("date", BVal.date ds)]

/-- The full computed record for one date: the base record with
`record[param.lower()] = ...` executed for each requested parameter in
order (fetch.py lines 136-141). -/
def buildRecord (c : County) (params : List String) (pd : ParamData) (ds : String) : Doc :=
  applyFields (params.map (fun p => (pyLower p, paramValue pd p ds))) (baseRecord c ds)

/-- The upsert filter for one record (fetch.py lines 144-147). -/
def recordFilter (c : County) (ds : String) : List (String × BVal) :=
  keyFilter c.fips_code (BVal.date ds)

/-- The `for date_str in dates` reconcile-and-upsert loop (fetch.py
lines 125-153).  `strptime` failure on a date string raises `ValueError`,
aborting the loop with the writes so far kept (the exception is caught
by the outer `except Exception`); the Bool records whether the loop
finished normally. -/
def reconcileLoop (c : County) (params : List String) (pd : ParamData) :
    List String → List Doc → List Doc × Bool
  | [], s => (s, true)
  | ds :: rest, s =>
    if isValidYmd ds then
      reconcileLoop c params pd rest
        (updateOne (recordFilter c ds) (buildRecord c params pd ds) s)
    else (s, false)

/-- `parameters_data[next(iter(parameters_data))].keys()` (fetch.py line
123): the date keys of the first parameter in the response table. On an
empty table `next(iter(...))` raises `StopIteration` instead. -/
def firstDates : ParamData → List String
  | [] => []
  | (_, m) :: _ => m.map Prod.fst

/-- The per-entity outcome of `fetch_and_store_data`, as distinguished
by its logging calls and early returns. -/
inductive Outcome where
  | missingFields : Outcome
  | noWork : Outcome
  | noData : Outcome
  | updated : Outcome
  | httpError : Outcome
  | unexpected : Outcome
deriving DecidableEq

/-- Log severity used by the script. -/
inductive LogLevel where
  | info : LogLevel
  | warning : LogLevel
  | error : LogLevel
deriving DecidableEq

/-- The logging level `fetch_and_store_data` emits for each outcome:
warning for missing fields (line 82), info for the no-work skip (line
103), warning for no data (line 156), info for success (line 154),
`logging.error` for HTTPError (line 159) and `logging.exception` (error
level) for unexpected exceptions (line 161). -/
def outcomeLogLevel : Outcome → LogLevel
  | .missingFields => .warning
  | .noWork => .info
  | .noData => .warning
  | .updated => .info
  | .httpError => .error
  | .unexpected => .error

/-- `fetch_and_store_data` (fetch.py lines 72-161) for one county.
`today` is the current ordinal date, `latest` the result of
`get_latest_date_for_county` (datetimes are always truthy, so the
`if latest_date_in_db:` test is an `Option` match), `att` the sequence
of HTTP attempt results, `store` the weather collection.  Returns the
updated collection and the outcome; every exception inside the try block
is caught at this boundary, so the function is total and the rest of the
batch is unaffected. -/
def fetch_and_store_data (cfg_re_fetch_days : Int) (cfg_parameters : List String)
    (today : Int) (latest : Option Int) (c : County)
    (att : Nat → Except ReqError ApiData) (store : List Doc) : List Doc × Outcome :=
  if fieldsOk c then
    if windowEmpty (fetchWindow today cfg_re_fetch_days latest) then (store, .noWork)
    else
      match fetch_api_data att with
      | .error e => if isHTTPError e then (store, .httpError) else (store, .unexpected)
      | .ok .malformed => (store, .noData)
      | .ok (.table []) => (store, .unexpected)
      | .ok (.table ((p0, m0) :: restPd)) =>
        match reconcileLoop c cfg_parameters ((p0, m0) :: restPd) (m0.map Prod.fst) store with
        | (s, true) => (s, .updated)
        | (s, false) => (s, .unexpected)
  else (store, .missingFields)

/-- One upsert operation: its filter and its `$set` record. -/
abbrev UpsertOp := List (String × BVal) × Doc

/-- Run a list of upserts in order. -/
def runOps (ops : List UpsertOp) (s : List Doc) : List Doc :=
  ops.foldl (fun a op => updateOne op.1 op.2 a) s

/-- The upsert operations performed by one reconcile pass over a date list. -/
def reconcileOps (c : County) (params : List String) (pd : ParamData)
    (dates : List String) : List UpsertOp :=
  dates.map (fun ds => (recordFilter c ds, buildRecord c params pd ds))

/-- The first document matching the filter exists and is a fixpoint of
the `$set` record (so the upsert is a no-op). -/
def firstMatchIsFix (filt rcd : List (String × BVal)) : List Doc → Bool
  | [] => false
  | d :: ds =>
    if docMatches filt d then decide (applyFields rcd d = d) else firstMatchIsFix filt rcd ds

/-- Two upserts are independent: no document produced by either one's
`$set` matches the other's filter. -/
def IndepOps (a b : UpsertOp) : Prop :=
  (∀ d, docMatches b.1 (applyFields a.2 d) = false) ∧
  (∀ d, docMatches a.1 (applyFields b.2 d) = false)

/-- An upsert is well-keyed: its `$set` record forces a match of its own
filter, and its `$set` is idempotent. -/
def GoodOp (op : UpsertOp) : Prop :=
  (∀ d, docMatches op.1 (applyFields op.2 d) = true) ∧
  (∀ d, applyFields op.2 (applyFields op.2 d) = applyFields op.2 d)

/-- Spec-side definition (refinement target for claim C7): the union of
the dates present under any parameter of the response. -/
def unionDates (pd : ParamData) : List String :=
  (pd.map (fun pm => pm.2.map Prod.fst)).flatten.dedup

/-- Spec-side definition (refinement target for claim C6): the calendar
date five calendar years before `(y, m, d)`, as an ordinal. -/
def fiveCalendarYearsBefore (y m d : Nat) : Int := toOrdinal (y - 5) m d

/-- A county with all required fields present and truthy. -/
def countyA : County :=
  ⟨BVal.str "Adams", BVal.str "Ohio", BVal.num 39001, BVal.num 38, BVal.num (-83)⟩

/-- The same county with latitude 0 — a valid coordinate that is falsy. -/
def countyZeroLat : County :=
  ⟨BVal.str "Adams", BVal.str "Ohio", BVal.num 39001, BVal.num 0, BVal.num (-83)⟩

/-- A one-parameter, one-date upstream table. -/
def pdSingle : ParamData := [("T2M", [("20230601", BVal.num 25)])]

/-- A table whose first parameter has one date while the second has two:
the union of the dates differs from the first parameter's date set. -/
def pdTwo : ParamData :=
  [("A", [("20230601", BVal.num 1)]),
   ("B", [("20230601", BVal.num 2), ("20230602", BVal.num 3)])]

/-- A previously stored document for key (39001, 2023-06-01) carrying a
field the computed record does not have. -/
def legacyDoc : Doc :=
  [("fips_code", BVal.num 39001), ("date", BVal.date "20230601"), ("legacy", BVal.str "x")]

/-- The computed record of countyA for 2023-06-01 with parameter list ["T2M"]. -/
def rcdA : Doc := buildRecord countyA ["T2M"] pdSingle "20230601"

/-- The upsert filter of countyA for 2023-06-01. -/
def filtA : List (String × BVal) := recordFilter countyA "20230601"

/-- An attempt sequence whose first attempt raises `HTTPError 404` and
whose second attempt succeeds. -/
def att404 : Nat → Except ReqError ApiData :=
  fun i => if i = 0 then Except.error (ReqError.httpStatus 404) else Except.ok ApiData.malformed

/-- An attempt sequence that always raises an exception that is not a
`RequestException`. -/
def attOther : Nat → Except ReqError ApiData := fun _ => Except.error ReqError.other

/-- An attempt sequence whose attempts all fail with retryable errors,
the last one being a 503. -/
def attAllFail : Nat → Except ReqError ApiData :=
  fun i => if i < 4 then Except.error ReqError.timeout
           else Except.error (ReqError.httpStatus 503)

/-- The error of attempt `i` of `attAllFail`. -/
def attAllFailErr : Nat → ReqError :=
  fun i => if i < 4 then ReqError.timeout else ReqError.httpStatus 503

/-- An attempt sequence that always succeeds with `pdSingle`. -/
def attOkSingle : Nat → Except ReqError ApiData := fun _ => Except.ok (ApiData.table pdSingle)

/-- An attempt sequence that always succeeds with `pdTwo`. -/
def attOkTwo : Nat → Except ReqError ApiData := fun _ => Except.ok (ApiData.table pdTwo)

/-- An attempt sequence that succeeds with an empty parameter table
(`properties.parameter` present but `{}`). -/
def attEmptyTable : Nat → Except ReqError ApiData := fun _ => Except.ok (ApiData.table [])

/-- An attempt sequence that succeeds with a response missing the
`properties.parameter` path. -/
def attMalformed : Nat → Except ReqError ApiData := fun _ => Except.ok ApiData.malformed

theorem getField_nil (k : String) : getField k [] = none := rfl

theorem getField_cons (k k2 : String) (v : BVal) (d : Doc) :
    getField k ((k2, v) :: d) = if k2 = k then some v else getField k d := rfl

theorem getField_setField (k k2 : String) (v : BVal) (d : Doc) :
    getField k (setField k2 v d) = if k2 = k then some v else getField k d := by
  induction d with
  | nil => simp [getField, setField, lookupStr]
  | cons kv rest ih =>
    obtain ⟨k3, v3⟩ := kv
    by_cases h32 : k3 = k2
    · subst h32
      by_cases hk : k3 = k <;> simp [getField, setField, lookupStr, hk]
    · by_cases hk : k3 = k
      · subst hk
        have hne : ¬ k2 = k3 := fun hh => h32 hh.symm
        simp [getField, setField, lookupStr, h32, hne]
      · simpa [getField, setField, lookupStr, h32, hk] using ih

theorem applyFields_nil (d : Doc) : applyFields [] d = d := rfl

theorem applyFields_cons (kv : String × BVal) (fs : List (String × BVal)) (d : Doc) :
    applyFields (kv :: fs) d = applyFields fs (setField kv.1 kv.2 d) := rfl

theorem getField_applyFields (k : String) (fs : List (String × BVal)) (d : Doc) :
    getField k (applyFields fs d) = (lookupLast k fs).or (getField k d) := by
  induction fs generalizing d with
  | nil => simp [applyFields, lookupLast]
  | cons kv fs ih =>
    rw [applyFields_cons, ih, getField_setField]
    cases h : lookupLast k fs with
    | some v => simp [lookupLast, h]
    | none =>
      by_cases hk : kv.1 = k <;> simp [lookupLast, h, hk]

theorem lookupLast_eq_none_of_not_mem (k : String) (fs : List (String × BVal))
    (h : k ∉ fs.map Prod.fst) : lookupLast k fs = none := by
  induction fs with
  | nil => rfl
  | cons kv fs ih =>
    simp only [List.map_cons, List.mem_cons] at h
    push_neg at h
    rw [lookupLast, ih h.2]
    simp [Ne.symm h.1]

theorem lookupLast_of_nodup_mem (k : String) (v : BVal) (fs : List (String × BVal))
    (hnd : (fs.map Prod.fst).Nodup) (hmem : (k, v) ∈ fs) : lookupLast k fs = some v := by
  induction fs with
  | nil => cases hmem
  | cons kv fs ih =>
    simp only [List.map_cons, List.nodup_cons] at hnd
    rcases List.mem_cons.mp hmem with h | h
    · subst h
      rw [lookupLast, lookupLast_eq_none_of_not_mem _ _ hnd.1]
      simp
    · rw [lookupLast, ih hnd.2 h]

theorem getField_eq_none_of_not_mem (k : String) (d : Doc)
    (h : k ∉ d.map Prod.fst) : getField k d = none := by
  induction d with
  | nil => rfl
  | cons kv rest ih =>
    simp only [List.map_cons, List.mem_cons] at h
    push_neg at h
    obtain ⟨k3, v3⟩ := kv
    rw [getField_cons]
    simp only [List.map_cons] at *
    rw [if_neg (fun hh => h.1 hh.symm), ih h.2]

theorem lookupLast_eq_getField_of_nodup (k : String) (d : Doc)
    (hnd : (d.map Prod.fst).Nodup) : lookupLast k d = getField k d := by
  induction d with
  | nil => rfl
  | cons kv rest ih =>
    obtain ⟨k3, v3⟩ := kv
    simp only [List.map_cons, List.nodup_cons] at hnd
    have hrest := ih hnd.2
    by_cases hk : k3 = k
    · subst hk
      have h0 : getField k3 rest = none := getField_eq_none_of_not_mem _ _ hnd.1
      simp [lookupLast, getField_cons, hrest, h0]
    · simp only [lookupLast, getField_cons, hrest, if_neg hk]
      cases h : getField k rest <;> simp

theorem mem_keys_setField (a k : String) (v : BVal) (d : Doc) :
    a ∈ (setField k v d).map Prod.fst ↔ a = k ∨ a ∈ d.map Prod.fst := by
  induction d with
  | nil => simp [setField, eq_comm]
  | cons kv rest ih =>
    obtain ⟨k3, v3⟩ := kv
    by_cases h : k3 = k
    · subst h
      simp [setField, eq_comm]
    · simp only [setField, if_neg h, List.map_cons, List.mem_cons, ih]
      tauto

theorem nodup_keys_setField (k : String) (v : BVal) (d : Doc)
    (hnd : (d.map Prod.fst).Nodup) : ((setField k v d).map Prod.fst).Nodup := by
  induction d with
  | nil => simp [setField]
  | cons kv rest ih =>
    obtain ⟨k3, v3⟩ := kv
    simp only [List.map_cons, List.nodup_cons] at hnd
    by_cases h : k3 = k
    · subst h
      have heq : setField k3 v ((k3, v3) :: rest) = (k3, v) :: rest := by simp [setField]
      rw [heq]
      simpa using hnd
    · simp only [setField, if_neg h, List.map_cons, List.nodup_cons]
      refine ⟨fun hmem => ?_, ih hnd.2⟩
      rcases (mem_keys_setField _ _ _ _).mp hmem with rfl | hmem2
      · exact h rfl
      · exact hnd.1 hmem2

theorem nodup_keys_applyFields (fs : List (String × BVal)) (d : Doc)
    (hnd : (d.map Prod.fst).Nodup) : ((applyFields fs d).map Prod.fst).Nodup := by
  induction fs generalizing d with
  | nil => exact hnd
  | cons kv fs ih => exact ih _ (nodup_keys_setField _ _ _ hnd)

theorem setField_of_getField_eq (k : String) (v : BVal) (d : Doc)
    (h : getField k d = some v) : setField k v d = d := by
  induction d with
  | nil => simp [getField, lookupStr] at h
  | cons kv rest ih =>
    obtain ⟨k3, v3⟩ := kv
    rw [getField_cons] at h
    by_cases hk : k3 = k
    · subst hk
      rw [if_pos rfl] at h
      rw [setField, if_pos rfl]
      cases h
      rfl
    · rw [if_neg hk] at h
      rw [setField, if_neg hk, ih h]

theorem applyFields_id (fs : List (String × BVal)) (d : Doc)
    (h : ∀ kv ∈ fs, getField kv.1 d = some kv.2) : applyFields fs d = d := by
  induction fs with
  | nil => rfl
  | cons kv fs ih =>
    rw [applyFields_cons, setField_of_getField_eq _ _ _ (h kv (List.mem_cons_self _ _))]
    exact ih (fun kv2 hm => h kv2 (List.mem_cons_of_mem _ hm))

theorem applyFields_self (fs : List (String × BVal)) (d : Doc)
    (hnd : (fs.map Prod.fst).Nodup) :
    applyFields fs (applyFields fs d) = applyFields fs d := by
  refine applyFields_id _ _ (fun kv hm => ?_)
  rw [getField_applyFields, lookupLast_of_nodup_mem kv.1 kv.2 fs hnd hm]
  rfl

theorem keys_baseRecord (c : County) (ds : String) :
    (baseRecord c ds).map Prod.fst =
      ["county_name", "state_name", "fips_code", "latitude", "longitude", "date"] := rfl

theorem nodup_keys_buildRecord (c : County) (params : List String) (pd : ParamData)
    (ds : String) : ((buildRecord c params pd ds).map Prod.fst).Nodup := by
  refine nodup_keys_applyFields _ _ ?_
  rw [keys_baseRecord]
  decide

theorem getField_buildRecord_of_not_param (c : County) (params : List String) (pd : ParamData)
    (ds k : String) (h : k ∉ params.map pyLower) :
    getField k (buildRecord c params pd ds) = getField k (baseRecord c ds) := by
  rw [buildRecord, getField_applyFields, lookupLast_eq_none_of_not_mem]
  · rfl
  · intro hm
    simp only [List.map_map, List.mem_map, Function.comp] at hm
    obtain ⟨p, hp, hq⟩ := hm
    exact h (List.mem_map.mpr ⟨p, hp, hq⟩)

theorem getField_date_buildRecord (c : County) (params : List String) (pd : ParamData)
    (ds : String) (hp : ∀ p ∈ params, pyLower p ≠ "date") :
    getField "date" (buildRecord c params pd ds) = some (BVal.date ds) := by
  rw [getField_buildRecord_of_not_param]
  · rfl
  · intro hm
    obtain ⟨p, hpm, hq⟩ := List.mem_map.mp hm
    exact hp p hpm hq

theorem getField_fips_buildRecord (c : County) (params : List String) (pd : ParamData)
    (ds : String) (hp : ∀ p ∈ params, pyLower p ≠ "fips_code") :
    getField "fips_code" (buildRecord c params pd ds) = some c.fips_code := by
  rw [getField_buildRecord_of_not_param]
  · rfl
  · intro hm
    obtain ⟨p, hpm, hq⟩ := List.mem_map.mp hm
    exact hp p hpm hq

theorem docMatches_keyFilter (f dv : BVal) (d : Doc) :
    docMatches (keyFilter f dv) d =
      (decide (getField "fips_code" d = some f) && decide (getField "date" d = some dv)) := by
  simp [docMatches, keyFilter]

theorem getField_fips_applyFields_buildRecord (c : County) (params : List String)
    (pd : ParamData) (ds : String) (d : Doc)
    (hp : ∀ p ∈ params, pyLower p ≠ "fips_code") :
    getField "fips_code" (applyFields (buildRecord c params pd ds) d) = some c.fips_code := by
  rw [getField_applyFields,
      lookupLast_eq_getField_of_nodup _ _ (nodup_keys_buildRecord c params pd ds),
      getField_fips_buildRecord c params pd ds hp]
  rfl

theorem getField_date_applyFields_buildRecord (c : County) (params : List String)
    (pd : ParamData) (ds : String) (d : Doc)
    (hp : ∀ p ∈ params, pyLower p ≠ "date") :
    getField "date" (applyFields (buildRecord c params pd ds) d) = some (BVal.date ds) := by
  rw [getField_applyFields,
      lookupLast_eq_getField_of_nodup _ _ (nodup_keys_buildRecord c params pd ds),
      getField_date_buildRecord c params pd ds hp]
  rfl

theorem docMatches_self_buildRecord (c : County) (params : List String) (pd : ParamData)
    (ds : String) (d : Doc)
    (hp : ∀ p ∈ params, pyLower p ≠ "fips_code" ∧ pyLower p ≠ "date") :
    docMatches (recordFilter c ds) (applyFields (buildRecord c params pd ds) d) = true := by
  rw [recordFilter, docMatches_keyFilter,
      getField_fips_applyFields_buildRecord c params pd ds d (fun p h => (hp p h).1),
      getField_date_applyFields_buildRecord c params pd ds d (fun p h => (hp p h).2)]
  simp

theorem docMatches_neq_date_buildRecord (c : County) (params : List String) (pd : ParamData)
    (ds ds2 : String) (d : Doc)
    (hp : ∀ p ∈ params, pyLower p ≠ "date") (hne : ds ≠ ds2) :
    docMatches (recordFilter c ds2) (applyFields (buildRecord c params pd ds) d) = false := by
  rw [recordFilter, docMatches_keyFilter,
      getField_date_applyFields_buildRecord c params pd ds d hp]
  simp [hne]

theorem applyFields_buildRecord_self (c : County) (params : List String) (pd : ParamData)
    (ds : String) (d : Doc) :
    applyFields (buildRecord c params pd ds) (applyFields (buildRecord c params pd ds) d)
      = applyFields (buildRecord c params pd ds) d :=
  applyFields_self _ _ (nodup_keys_buildRecord c params pd ds)

theorem goodOp_reconcileOps (c : County) (params : List String) (pd : ParamData)
    (dates : List String)
    (hp : ∀ p ∈ params, pyLower p ≠ "fips_code" ∧ pyLower p ≠ "date") :
    ∀ op ∈ reconcileOps c params pd dates, GoodOp op := by
  intro op hm
  obtain ⟨ds, _, rfl⟩ := List.mem_map.mp hm
  exact ⟨fun d => docMatches_self_buildRecord c params pd ds d hp,
         fun d => applyFields_buildRecord_self c params pd ds d⟩

theorem pairwise_indep_reconcileOps (c : County) (params : List String) (pd : ParamData)
    (dates : List String)
    (hp : ∀ p ∈ params, pyLower p ≠ "fips_code" ∧ pyLower p ≠ "date")
    (hnd : dates.Nodup) :
    List.Pairwise IndepOps (reconcileOps c params pd dates) := by
  refine List.Pairwise.map _ (fun a b hab => ?_) hnd
  exact ⟨fun d => docMatches_neq_date_buildRecord c params pd a b d (fun p h => (hp p h).2) hab,
         fun d => docMatches_neq_date_buildRecord c params pd b a d (fun p h => (hp p h).2)
           (Ne.symm hab)⟩

theorem updateOne_cons (filt rcd : List (String × BVal)) (d : Doc) (ds : List Doc) :
    updateOne filt rcd (d :: ds) =
      if docMatches filt d then applyFields rcd d :: ds else d :: updateOne filt rcd ds := rfl

theorem firstMatchIsFix_cons (filt rcd : List (String × BVal)) (d : Doc) (ds : List Doc) :
    firstMatchIsFix filt rcd (d :: ds) =
      if docMatches filt d then decide (applyFields rcd d = d)
      else firstMatchIsFix filt rcd ds := rfl

theorem updateOne_of_firstMatchIsFix (filt rcd : List (String × BVal)) (s : List Doc)
    (h : firstMatchIsFix filt rcd s = true) : updateOne filt rcd s = s := by
  induction s with
  | nil => simp [firstMatchIsFix] at h
  | cons d ds ih =>
    rw [firstMatchIsFix_cons] at h
    rw [updateOne_cons]
    by_cases hm : docMatches filt d
    · rw [if_pos hm] at h
      rw [if_pos hm, of_decide_eq_true h]
    · rw [if_neg hm] at h
      rw [if_neg hm, ih h]

theorem firstMatchIsFix_updateOne_self (filt rcd : List (String × BVal)) (s : List Doc)
    (h1 : ∀ d, docMatches filt (applyFields rcd d) = true)
    (h3 : ∀ d, applyFields rcd (applyFields rcd d) = applyFields rcd d) :
    firstMatchIsFix filt rcd (updateOne filt rcd s) = true := by
  induction s with
  | nil =>
    rw [updateOne, firstMatchIsFix_cons, if_pos (h1 filt)]
    simp [h3 filt]
  | cons d ds ih =>
    rw [updateOne_cons]
    by_cases hm : docMatches filt d
    · rw [if_pos hm, firstMatchIsFix_cons, if_pos (h1 d)]
      simp [h3 d]
    · rw [if_neg hm, firstMatchIsFix_cons, if_neg hm]
      exact ih

theorem firstMatchIsFix_updateOne_other (f r f2 r2 : List (String × BVal)) (s : List Doc)
    (h : firstMatchIsFix f r s = true)
    (hi1 : ∀ d, docMatches f2 (applyFields r d) = false)
    (hi2 : ∀ d, docMatches f (applyFields r2 d) = false) :
    firstMatchIsFix f r (updateOne f2 r2 s) = true := by
  induction s with
  | nil => simp [firstMatchIsFix] at h
  | cons d ds ih =>
    rw [firstMatchIsFix_cons] at h
    by_cases hm : docMatches f d
    · rw [if_pos hm] at h
      have hfix : applyFields r d = d := of_decide_eq_true h
      have hm2 : docMatches f2 d = false := by rw [← hfix]; exact hi1 d
      rw [updateOne_cons, if_neg (by simp [hm2]), firstMatchIsFix_cons, if_pos hm]
      exact h
    · rw [if_neg hm] at h
      rw [updateOne_cons]
      by_cases hm2 : docMatches f2 d
      · rw [if_pos hm2, firstMatchIsFix_cons, if_neg (by simp [hi2 d])]
        exact h
      · rw [if_neg hm2, firstMatchIsFix_cons, if_neg hm]
        exact ih h

theorem runOps_nil (s : List Doc) : runOps [] s = s := rfl

theorem runOps_cons (op : UpsertOp) (ops : List UpsertOp) (s : List Doc) :
    runOps (op :: ops) s = runOps ops (updateOne op.1 op.2 s) := rfl

theorem firstMatchIsFix_runOps (f r : List (String × BVal)) (ops : List UpsertOp) (s : List Doc)
    (h : firstMatchIsFix f r s = true)
    (hind : ∀ op ∈ ops, (∀ d, docMatches op.1 (applyFields r d) = false) ∧
      (∀ d, docMatches f (applyFields op.2 d) = false)) :
    firstMatchIsFix f r (runOps ops s) = true := by
  induction ops generalizing s with
  | nil => exact h
  | cons op ops ih =>
    rw [runOps_cons]
    refine ih _ ?_ (fun op2 hm => hind op2 (List.mem_cons_of_mem _ hm))
    exact firstMatchIsFix_updateOne_other f r op.1 op.2 s h
      (hind op (List.mem_cons_self _ _)).1 (hind op (List.mem_cons_self _ _)).2

theorem fmf_all_runOps (ops : List UpsertOp) :
    ∀ (s : List Doc), (∀ op ∈ ops, GoodOp op) → List.Pairwise IndepOps ops →
      ∀ op ∈ ops, firstMatchIsFix op.1 op.2 (runOps ops s) = true := by
  induction ops with
  | nil => intro s _ _ op hm; cases hm
  | cons op0 ops ih =>
    intro s hgood hpair op hm
    rw [runOps_cons]
    rcases List.mem_cons.mp hm with rfl | hm2
    · refine firstMatchIsFix_runOps _ _ _ _ ?_ ?_
      · exact firstMatchIsFix_updateOne_self _ _ _
          (hgood op (List.mem_cons_self _ _)).1 (hgood op (List.mem_cons_self _ _)).2
      · intro op2 hm2
        exact (List.pairwise_cons.mp hpair).1 op2 hm2
    · exact ih _ (fun o ho => hgood o (List.mem_cons_of_mem _ ho))
        (List.pairwise_cons.mp hpair).2 op hm2

theorem runOps_noop (ops : List UpsertOp) (t : List Doc)
    (h : ∀ op ∈ ops, firstMatchIsFix op.1 op.2 t = true) : runOps ops t = t := by
  induction ops with
  | nil => rfl
  | cons op ops ih =>
    rw [runOps_cons, updateOne_of_firstMatchIsFix _ _ _ (h op (List.mem_cons_self _ _))]
    exact ih (fun o ho => h o (List.mem_cons_of_mem _ ho))

theorem runOps_idem (ops : List UpsertOp) (s : List Doc)
    (hgood : ∀ op ∈ ops, GoodOp op) (hpair : List.Pairwise IndepOps ops) :
    runOps ops (runOps ops s) = runOps ops s :=
  runOps_noop _ _ (fmf_all_runOps ops s hgood hpair)

theorem countMatches_nil (filt : List (String × BVal)) : countMatches filt [] = 0 := rfl

theorem countMatches_cons (filt : List (String × BVal)) (d : Doc) (s : List Doc) :
    countMatches filt (d :: s) =
      (if docMatches filt d then 1 else 0) + countMatches filt s := by
  by_cases h : docMatches filt d <;> (simp [countMatches, List.filter_cons, h]; try omega)

theorem countMatches_updateOne_self (filt rcd : List (String × BVal)) (s : List Doc)
    (h1 : ∀ d, docMatches filt (applyFields rcd d) = true) :
    countMatches filt (updateOne filt rcd s) = max (countMatches filt s) 1 := by
  induction s with
  | nil => simp [updateOne, countMatches_cons, countMatches_nil, h1 filt]
  | cons d ds ih =>
    rw [updateOne_cons]
    by_cases hm : docMatches filt d
    · rw [if_pos hm, countMatches_cons, countMatches_cons]
      simp only [hm, h1 d, if_true]
      omega
    · rw [if_neg hm, countMatches_cons, countMatches_cons, ih]
      simp only [Bool.not_eq_true] at hm
      simp only [hm, Bool.false_eq_true, if_false]
      omega

theorem countMatches_updateOne_other (kf filt rcd : List (String × BVal)) (s : List Doc)
    (hn : ∀ d, docMatches kf (applyFields rcd d) = false)
    (hx : ∀ d, docMatches filt d = true → docMatches kf d = false) :
    countMatches kf (updateOne filt rcd s) = countMatches kf s := by
  induction s with
  | nil => simp [updateOne, countMatches_cons, countMatches_nil, hn filt]
  | cons d ds ih =>
    rw [updateOne_cons]
    by_cases hm : docMatches filt d
    · rw [if_pos hm, countMatches_cons, countMatches_cons, hn d, hx d hm]
    · rw [if_neg hm, countMatches_cons, countMatches_cons, ih]

theorem updateOne_append_of_no_match (filt rcd : List (String × BVal)) (s : List Doc)
    (h : ∀ d ∈ s, docMatches filt d = false) :
    updateOne filt rcd s = s ++ [applyFields rcd filt] := by
  induction s with
  | nil => rfl
  | cons d ds ih =>
    rw [updateOne_cons, if_neg (by simp [h d (List.mem_cons_self _ _)]),
      ih (fun x hx => h x (List.mem_cons_of_mem _ hx))]
    rfl

theorem runOps_fresh (ops : List UpsertOp) (s : List Doc)
    (h : ∀ d ∈ s, ∀ op ∈ ops, docMatches op.1 d = false)
    (hpair : List.Pairwise IndepOps ops) :
    runOps ops s = s ++ ops.map (fun op => applyFields op.2 op.1) := by
  induction ops generalizing s with
  | nil => simp [runOps_nil]
  | cons op ops ih =>
    rw [runOps_cons,
      updateOne_append_of_no_match _ _ _ (fun d hd => h d hd op (List.mem_cons_self _ _)), ih]
    · simp
    · intro d hd op2 hop2
      rcases List.mem_append.mp hd with hd | hd
      · exact h d hd op2 (List.mem_cons_of_mem _ hop2)
      · have hde : d = applyFields op.2 op.1 := by simpa using hd
        subst hde
        exact ((List.pairwise_cons.mp hpair).1 op2 hop2).1 op.1
    · exact (List.pairwise_cons.mp hpair).2

theorem reconcileOps_nil (c : County) (params : List String) (pd : ParamData) :
    reconcileOps c params pd [] = [] := rfl

theorem reconcileOps_cons (c : County) (params : List String) (pd : ParamData)
    (ds : String) (rest : List String) :
    reconcileOps c params pd (ds :: rest) =
      (recordFilter c ds, buildRecord c params pd ds) :: reconcileOps c params pd rest := rfl

theorem reconcileLoop_eq_runOps (c : County) (params : List String) (pd : ParamData)
    (dates : List String) (s : List Doc) (hv : dates.all isValidYmd = true) :
    reconcileLoop c params pd dates s = (runOps (reconcileOps c params pd dates) s, true) := by
  induction dates generalizing s with
  | nil => rfl
  | cons ds rest ih =>
    simp only [List.all_cons, Bool.and_eq_true] at hv
    rw [reconcileLoop, if_pos hv.1, ih _ hv.2, reconcileOps_cons, runOps_cons]

theorem retryFrom_zero (retryOn : ReqError → Bool) (att : Nat → Except ReqError ApiData)
    (i : Nat) : retryFrom retryOn att i 0 = att i := rfl

theorem retryFrom_succ_ok (retryOn : ReqError → Bool) (att : Nat → Except ReqError ApiData)
    (i fuel : Nat) (a : ApiData) (h : att i = Except.ok a) :
    retryFrom retryOn att i (fuel + 1) = Except.ok a := by
  simp [retryFrom, h]

theorem retryFrom_succ_retry (retryOn : ReqError → Bool) (att : Nat → Except ReqError ApiData)
    (i fuel : Nat) (e : ReqError) (h : att i = Except.error e) (hr : retryOn e = true) :
    retryFrom retryOn att i (fuel + 1) = retryFrom retryOn att (i + 1) fuel := by
  simp [retryFrom, h, hr]

theorem retryFrom_succ_stop (retryOn : ReqError → Bool) (att : Nat → Except ReqError ApiData)
    (i fuel : Nat) (e : ReqError) (h : att i = Except.error e) (hr : retryOn e = false) :
    retryFrom retryOn att i (fuel + 1) = Except.error e := by
  simp [retryFrom, h, hr]

theorem retryCountFrom_zero (retryOn : ReqError → Bool) (att : Nat → Except ReqError ApiData)
    (i : Nat) : retryCountFrom retryOn att i 0 = 1 := rfl

theorem retryCountFrom_succ_ok (retryOn : ReqError → Bool) (att : Nat → Except ReqError ApiData)
    (i fuel : Nat) (a : ApiData) (h : att i = Except.ok a) :
    retryCountFrom retryOn att i (fuel + 1) = 1 := by
  simp [retryCountFrom, h]

theorem retryCountFrom_succ_retry (retryOn : ReqError → Bool)
    (att : Nat → Except ReqError ApiData) (i fuel : Nat) (e : ReqError)
    (h : att i = Except.error e) (hr : retryOn e = true) :
    retryCountFrom retryOn att i (fuel + 1) = 1 + retryCountFrom retryOn att (i + 1) fuel := by
  simp [retryCountFrom, h, hr]

theorem retryCountFrom_succ_stop (retryOn : ReqError → Bool)
    (att : Nat → Except ReqError ApiData) (i fuel : Nat) (e : ReqError)
    (h : att i = Except.error e) (hr : retryOn e = false) :
    retryCountFrom retryOn att i (fuel + 1) = 1 := by
  simp [retryCountFrom, h, hr]

theorem retryCountFrom_le (retryOn : ReqError → Bool) (att : Nat → Except ReqError ApiData) :
    ∀ (fuel i : Nat), retryCountFrom retryOn att i fuel ≤ fuel + 1 := by
  intro fuel
  induction fuel with
  | zero => intro i; rw [retryCountFrom_zero]
  | succ n ih =>
    intro i
    cases h : att i with
    | ok a => rw [retryCountFrom_succ_ok _ _ _ _ _ h]; omega
    | error e =>
      cases hr : retryOn e
      · rw [retryCountFrom_succ_stop _ _ _ _ _ h hr]; omega
      · rw [retryCountFrom_succ_retry _ _ _ _ _ h hr]
        have := ih (i + 1)
        omega

/-- C1 counterexample: the claim says a 4xx client-error response is never
retried and immediately becomes a per-entity failure.  For the attempt
sequence `att404` (first attempt raises `HTTPError 404`, second attempt
succeeds), `fetch_api_data` nevertheless makes a second attempt and
succeeds, because `HTTPError` is a subclass of
`requests.exceptions.RequestException` and the tenacity predicate
`retry_if_exception_type(RequestException)` therefore retries it. -/
theorem c1_counterexample :
    fetch_api_data att404 = Except.ok ApiData.malformed ∧ fetch_api_attempts att404 = 2 := by
  constructor <;> rfl

/-- C1 (amended): `fetch_api_data` retries on any `requests`-level
exception — connection errors, timeouts and every HTTP error status,
4xx included — and does not retry exceptions outside
`RequestException`; at most 5 attempts are made in total; and when all 5
attempts fail with retryable errors the most recent (5th) failure is
propagated to the caller. -/
theorem c1_retry_policy :
    (∀ att : Nat → Except ReqError ApiData, fetch_api_attempts att ≤ 5)
    ∧ (∀ (att : Nat → Except ReqError ApiData) (es : Nat → ReqError),
        (∀ i, att i = Except.error (es i)) → (∀ i, isRequestException (es i) = true) →
        fetch_api_data att = Except.error (es 4) ∧ fetch_api_attempts att = 5)
    ∧ (∀ (att : Nat → Except ReqError ApiData) (e : ReqError) (a : ApiData),
        att 0 = Except.error e → isRequestException e = true → att 1 = Except.ok a →
        fetch_api_data att = Except.ok a ∧ fetch_api_attempts att = 2)
    ∧ (∀ (att : Nat → Except ReqError ApiData) (e : ReqError),
        att 0 = Except.error e → isRequestException e = false →
        fetch_api_data att = Except.error e ∧ fetch_api_attempts att = 1)
    ∧ isRequestException (ReqError.httpStatus 404) = true
    ∧ isRequestException ReqError.timeout = true
    ∧ isRequestException ReqError.connectionError = true := by
  refine ⟨?_, ?_, ?_, ?_, rfl, rfl, rfl⟩
  · intro att
    exact retryCountFrom_le isRequestException att 4 0
  · intro att es hall hreq
    constructor
    · rw [fetch_api_data, show (4 : Nat) = 3 + 1 from rfl,
        retryFrom_succ_retry _ _ _ _ _ (hall 0) (hreq 0),
        show (3 : Nat) = 2 + 1 from rfl,
        retryFrom_succ_retry _ _ _ _ _ (hall 1) (hreq 1),
        show (2 : Nat) = 1 + 1 from rfl,
        retryFrom_succ_retry _ _ _ _ _ (hall 2) (hreq 2),
        show (1 : Nat) = 0 + 1 from rfl,
        retryFrom_succ_retry _ _ _ _ _ (hall 3) (hreq 3),
        retryFrom_zero]
      exact hall 4
    · rw [fetch_api_attempts, show (4 : Nat) = 3 + 1 from rfl,
        retryCountFrom_succ_retry _ _ _ _ _ (hall 0) (hreq 0),
        show (3 : Nat) = 2 + 1 from rfl,
        retryCountFrom_succ_retry _ _ _ _ _ (hall 1) (hreq 1),
        show (2 : Nat) = 1 + 1 from rfl,
        retryCountFrom_succ_retry _ _ _ _ _ (hall 2) (hreq 2),
        show (1 : Nat) = 0 + 1 from rfl,
        retryCountFrom_succ_retry _ _ _ _ _ (hall 3) (hreq 3),
        retryCountFrom_zero]
  · intro att e a h0 hr h1
    constructor
    · rw [fetch_api_data, show (4 : Nat) = 3 + 1 from rfl,
        retryFrom_succ_retry _ _ _ _ _ h0 hr,
        show (3 : Nat) = 2 + 1 from rfl,
        retryFrom_succ_ok _ _ _ _ _ h1]
    · rw [fetch_api_attempts, show (4 : Nat) = 3 + 1 from rfl,
        retryCountFrom_succ_retry _ _ _ _ _ h0 hr,
        show (3 : Nat) = 2 + 1 from rfl,
        retryCountFrom_succ_ok _ _ _ _ _ h1]
  · intro att e h0 hr
    constructor
    · rw [fetch_api_data, show (4 : Nat) = 3 + 1 from rfl,
        retryFrom_succ_stop _ _ _ _ _ h0 hr]
    · rw [fetch_api_attempts, show (4 : Nat) = 3 + 1 from rfl,
        retryCountFrom_succ_stop _ _ _ _ _ h0 hr]

/-- Witness for C1 (amended): at the concrete attempt sequence
`attOther`, whose first attempt raises a non-`RequestException`
exception, the amended theorem gives immediate propagation after a
single attempt. -/
theorem c1_retry_policy_witness :
    fetch_api_data attOther = Except.error ReqError.other
    ∧ fetch_api_attempts attOther = 1 :=
  c1_retry_policy.2.2.2.1 attOther ReqError.other rfl rfl

/-- C5: for an entity with a latest stored date `L`, the resolved fetch
window is `[max (L − re_fetch_days) (today − 5·365 days), today − 1]`
inclusive ("today − 5 years" in the source is
`timedelta(days=5*365)`); in particular for `L` = 10 days ago and
`re_fetch_days` = 7 the window is `[today − 17, today − 1]`. -/
theorem c5_window_formula :
    (∀ (today refetch latest : Int),
      fetchWindow today refetch (some latest) =
        (max (latest - refetch) (today - 5 * 365), today - 1))
    ∧ (∀ today : Int, fetchWindow today 7 (some (today - 10)) = (today - 17, today - 1)) := by
  constructor
  · intro today refetch latest
    rfl
  · intro today
    have h1 : start_date_dt today 7 (some (today - 10)) = today - 17 := by
      show max (today - 10 - 7) (five_years_ago today) = today - 17
      rw [five_years_ago, max_eq_left (by omega)]
      omega
    rw [fetchWindow, h1, end_date_dt]

/-- C6 counterexample: the claim says the no-prior-data window start is
exactly 5 calendar years before today.  For today = 2025-10-12 the code
starts at today − 1825 days = 2020-10-13, while 5 calendar years before
today is 2020-10-12 (the interval contains the leap day 2024-02-29), so
the two differ. -/
theorem c6_counterexample :
    (fetchWindow (toOrdinal 2025 10 12) 7 none).1 ≠ fiveCalendarYearsBefore 2025 10 12 := by
  decide

/-- C6 (amended): for an entity with no prior stored data the resolved
window start equals exactly `today − 1825` days (the code's
`timedelta(days=5*365)` floor, one day later than 5 calendar years
whenever the interval spans a leap day), regardless of the configured
`re_fetch_days`. -/
theorem c6_floor_clamp :
    ∀ (today refetch : Int), (fetchWindow today refetch none).1 = today - 1825 := by
  intro today refetch
  show five_years_ago today = today - 1825
  rw [five_years_ago]
  omega

/-- Helper for C2: with the latest stored date equal to today and
`re_fetch_days` = 0 the resolved window is inverted. -/
theorem windowEmpty_latest_today (today : Int) :
    windowEmpty (fetchWindow today 0 (some today)) = true := by
  show decide (end_date_dt today < start_date_dt today 0 (some today)) = true
  rw [end_date_dt]
  show decide (today - 1 < max (today - 0) (five_years_ago today)) = true
  rw [five_years_ago, max_eq_left (by omega)]
  simp only [decide_eq_true_eq]
  omega

/-- C2 counterexample: the claim says that for a latest stored date of
yesterday and `re_fetch_days` = 0 the resolved window is empty and no
fetch occurs.  At today = 1000, latest = 999, the window is the
non-empty single day `[999, 999]` (`start = end`, and the code only
skips when `start > end`), the fetch runs and a record is written. -/
theorem c2_counterexample :
    windowEmpty (fetchWindow 1000 0 (some 999)) = false
    ∧ (fetch_and_store_data 0 ["T2M"] 1000 (some 999) countyA attOkSingle []).2 = Outcome.updated
    ∧ (fetch_and_store_data 0 ["T2M"] 1000 (some 999) countyA attOkSingle []).1 ≠ [] := by
  refine ⟨by decide, by decide, by decide⟩

/-- C2 (amended): with latest stored date = yesterday and
`re_fetch_days` = 0 the window is the non-empty single day
`[yesterday, yesterday]` and a fetch occurs; the informational no-work
skip happens exactly when `start > end`, e.g. when the latest stored
date is today with `re_fetch_days` = 0, in which case no fetch occurs,
the store is untouched and the outcome is the info-level no-work skip,
not an error. -/
theorem c2_no_work_skip :
    (∀ today : Int, fetchWindow today 0 (some (today - 1)) = (today - 1, today - 1)
      ∧ windowEmpty (fetchWindow today 0 (some (today - 1))) = false)
    ∧ (∀ today : Int, windowEmpty (fetchWindow today 0 (some today)) = true)
    ∧ (∀ (params : List String) (today : Int) (c : County)
        (att : Nat → Except ReqError ApiData) (store : List Doc),
        fieldsOk c = true →
        fetch_and_store_data 0 params today (some today) c att store = (store, Outcome.noWork))
    ∧ outcomeLogLevel Outcome.noWork = LogLevel.info := by
  refine ⟨?_, windowEmpty_latest_today, ?_, rfl⟩
  · intro today
    have h1 : start_date_dt today 0 (some (today - 1)) = today - 1 := by
      show max (today - 1 - 0) (five_years_ago today) = today - 1
      rw [five_years_ago, max_eq_left (by omega)]
      omega
    constructor
    · rw [fetchWindow, h1, end_date_dt]
    · show decide (end_date_dt today < start_date_dt today 0 (some (today - 1))) = false
      rw [h1, end_date_dt]
      simp only [decide_eq_false_iff_not]
      omega
  · intro params today c att store hok
    rw [fetch_and_store_data, if_pos hok, if_pos (windowEmpty_latest_today today)]

/-- Witness for C2 (amended): the concrete no-work skip at today = 1000
with the latest stored date also 1000. -/
theorem c2_no_work_skip_witness :
    fetch_and_store_data 0 ["T2M"] 1000 (some 1000) countyA attOkSingle []
      = ([], Outcome.noWork) :=
  c2_no_work_skip.2.2.1 ["T2M"] 1000 countyA attOkSingle [] (by decide)

/-- C9: an entity whose required fields are present but where any of
them is falsy — latitude or longitude 0, an empty-string name, or a
null — is skipped with a warning exactly like an entity with a missing
field: `all([...])` tests Python truthiness, so the pipeline returns
immediately with the store untouched, and 0, "" and None are falsy. -/
theorem c9_falsy_fields_skipped :
    (∀ (refetch : Int) (params : List String) (today : Int) (latest : Option Int)
       (c : County) (att : Nat → Except ReqError ApiData) (store : List Doc),
       fieldsOk c = false →
       fetch_and_store_data refetch params today latest c att store
         = (store, Outcome.missingFields))
    ∧ truthy (BVal.num 0) = false
    ∧ truthy (BVal.str "") = false
    ∧ truthy BVal.null = false
    ∧ outcomeLogLevel Outcome.missingFields = LogLevel.warning := by
  refine ⟨?_, by decide, by decide, rfl, rfl⟩
  intro refetch params today latest c att store hbad
  rw [fetch_and_store_data, if_neg (by simp [hbad])]

/-- Witness for C9: the county with latitude 0 (a valid coordinate that
is falsy) is skipped with the store untouched. -/
theorem c9_falsy_fields_skipped_witness :
    fetch_and_store_data 7 ["T2M"] 1000 none countyZeroLat attOkSingle []
      = ([], Outcome.missingFields) :=
  c9_falsy_fields_skipped.1 7 ["T2M"] 1000 none countyZeroLat attOkSingle [] (by decide)

/-- C10: when the upstream response has the `properties.parameter` path
but the mapping is empty, `next(iter(...))` raises `StopIteration`,
which the generic `except Exception` records as a per-entity failure
(error level, no records written); when the path is absent the entity
takes the distinct no-data skip.  In both cases `fetch_and_store_data`
returns normally (the exception is caught at the per-entity boundary),
so the rest of the batch continues. -/
theorem c10_empty_table_is_failure :
    (∀ (refetch : Int) (params : List String) (today : Int) (latest : Option Int)
       (c : County) (att : Nat → Except ReqError ApiData) (store : List Doc),
       fieldsOk c = true →
       windowEmpty (fetchWindow today refetch latest) = false →
       (fetch_api_data att = Except.ok (ApiData.table []) →
         fetch_and_store_data refetch params today latest c att store
           = (store, Outcome.unexpected))
       ∧ (fetch_api_data att = Except.ok ApiData.malformed →
         fetch_and_store_data refetch params today latest c att store
           = (store, Outcome.noData)))
    ∧ Outcome.unexpected ≠ Outcome.noData
    ∧ outcomeLogLevel Outcome.unexpected = LogLevel.error
    ∧ outcomeLogLevel Outcome.noData = LogLevel.warning := by
  refine ⟨?_, by decide, rfl, rfl⟩
  intro refetch params today latest c att store hok hw
  constructor
  · intro hapi
    rw [fetch_and_store_data, if_pos hok, if_neg (by simp [hw]), hapi]
  · intro hapi
    rw [fetch_and_store_data, if_pos hok, if_neg (by simp [hw]), hapi]

/-- Witness for C10: concrete empty-table and missing-path responses at
today = 1000, latest = 999. -/
theorem c10_empty_table_is_failure_witness :
    fetch_and_store_data 7 ["T2M"] 1000 (some 999) countyA attEmptyTable []
      = ([], Outcome.unexpected)
    ∧ fetch_and_store_data 7 ["T2M"] 1000 (some 999) countyA attMalformed []
      = ([], Outcome.noData) :=
  ⟨(c10_empty_table_is_failure.1 7 ["T2M"] 1000 (some 999) countyA attEmptyTable []
      (by decide) (by decide)).1 rfl,
   (c10_empty_table_is_failure.1 7 ["T2M"] 1000 (some 999) countyA attMalformed []
      (by decide) (by decide)).2 rfl⟩

/-- C3 counterexample: the claim says no field from a previously stored
document under the key survives the upsert.  Upserting the computed
record `rcdA` for key (39001, 2023-06-01) into a store holding
`legacyDoc` keeps `legacyDoc`'s extra field "legacy", because the code
uses `{'$set': record}`, which merges fields instead of replacing the
document. -/
theorem c3_counterexample :
    getField "legacy" ((updateOne filtA rcdA [legacyDoc]).headD []) = some (BVal.str "x") := by
  decide

/-- C3 (amended): the upsert has `$set` merge semantics keyed by
(fips_code, date): on the first matching stored document every field
named by the computed record is written with the computed value, while
fields of the previous document not named by the record survive
unchanged — a field-wise merge, not a whole-document replace. -/
theorem c3_set_merge :
    ∀ (filt rcd : List (String × BVal)) (d0 : Doc) (rest : List Doc),
      docMatches filt d0 = true →
      updateOne filt rcd (d0 :: rest) = applyFields rcd d0 :: rest
      ∧ (∀ k, getField k (applyFields rcd d0) = (lookupLast k rcd).or (getField k d0)) := by
  intro filt rcd d0 rest h
  refine ⟨?_, fun k => getField_applyFields k rcd d0⟩
  rw [updateOne_cons, if_pos h]

/-- Witness for C3 (amended): the concrete merge of `rcdA` into the
store holding `legacyDoc`. -/
theorem c3_set_merge_witness :
    updateOne filtA rcdA [legacyDoc] = [applyFields rcdA legacyDoc]
    ∧ getField "legacy" (applyFields rcdA legacyDoc)
      = (lookupLast "legacy" rcdA).or (getField "legacy" legacyDoc) :=
  ⟨(c3_set_merge filtA rcdA legacyDoc [] (by decide)).1,
   (c3_set_merge filtA rcdA legacyDoc [] (by decide)).2 "legacy"⟩

/-- C8: for every emitted record and every requested parameter (with
the requested parameter codes distinct after lower-casing, as they are
in any real configuration), the record contains a field named by the
parameter lower-cased holding exactly the looked-up value, and that
value is the explicit null when the parameter code is absent from the
response entirely or has no value for the date — the field is never
omitted. -/
theorem c8_param_fields :
    ∀ (c : County) (params : List String) (pd : ParamData) (ds p : String),
      (params.map pyLower).Nodup → p ∈ params →
      getField (pyLower p) (buildRecord c params pd ds) = some (paramValue pd p ds)
      ∧ (lookupStr p pd = none → paramValue pd p ds = BVal.null)
      ∧ (∀ m, lookupStr p pd = some m → lookupStr ds m = none →
          paramValue pd p ds = BVal.null) := by
  intro c params pd ds p hnd hmem
  refine ⟨?_, ?_, ?_⟩
  · have hnd2 : ((params.map (fun q => (pyLower q, paramValue pd q ds))).map Prod.fst).Nodup := by
      simpa [List.map_map, Function.comp] using hnd
    have hmem2 : (pyLower p, paramValue pd p ds)
        ∈ params.map (fun q => (pyLower q, paramValue pd q ds)) :=
      List.mem_map.mpr ⟨p, hmem, rfl⟩
    rw [buildRecord, getField_applyFields, lookupLast_of_nodup_mem _ _ _ hnd2 hmem2]
    rfl
  · intro h
    simp [paramValue, h]
  · intro m h1 h2
    simp [paramValue, h1, h2]

/-- Witness for C8: parameter "T2M" of `pdSingle` is stored under the
lower-cased field "t2m". -/
theorem c8_param_fields_witness :
    getField "t2m" (buildRecord countyA ["T2M"] pdSingle "20230601")
      = some (paramValue pdSingle "T2M" "20230601") :=
  (c8_param_fields countyA ["T2M"] pdSingle "20230601" "T2M" (by decide) (by decide)).1

theorem updateOne_preserves_atMostOne (c : County) (params : List String) (pd : ParamData)
    (ds : String) (s : List Doc)
    (hp : ∀ p ∈ params, pyLower p ≠ "fips_code" ∧ pyLower p ≠ "date")
    (hmo : atMostOnePerKey s) :
    atMostOnePerKey (updateOne (recordFilter c ds) (buildRecord c params pd ds) s) := by
  intro f dv
  by_cases hkey : f = c.fips_code ∧ dv = BVal.date ds
  · obtain ⟨rfl, rfl⟩ := hkey
    show countMatches (recordFilter c ds)
      (updateOne (recordFilter c ds) (buildRecord c params pd ds) s) ≤ 1
    rw [countMatches_updateOne_self _ _ _
      (fun d => docMatches_self_buildRecord c params pd ds d hp)]
    have h1 : countMatches (recordFilter c ds) s ≤ 1 := hmo c.fips_code (BVal.date ds)
    omega
  · have hn : ∀ d, docMatches (keyFilter f dv)
        (applyFields (buildRecord c params pd ds) d) = false := by
      intro d
      rw [docMatches_keyFilter,
        getField_fips_applyFields_buildRecord c params pd ds d (fun p h => (hp p h).1),
        getField_date_applyFields_buildRecord c params pd ds d (fun p h => (hp p h).2)]
      by_cases hf : f = c.fips_code
      · have hdv : dv ≠ BVal.date ds := fun h => hkey ⟨hf, h⟩
        simp [Ne.symm hdv]
      · simp [Ne.symm hf]
    have hx : ∀ d, docMatches (recordFilter c ds) d = true →
        docMatches (keyFilter f dv) d = false := by
      intro d hdm
      rw [recordFilter, docMatches_keyFilter] at hdm
      simp only [Bool.and_eq_true, decide_eq_true_eq] at hdm
      rw [docMatches_keyFilter]
      by_cases hf : f = c.fips_code
      · have hdv : dv ≠ BVal.date ds := fun h => hkey ⟨hf, h⟩
        rw [hdm.2]
        simp [Ne.symm hdv]
      · rw [hdm.1]
        simp [Ne.symm hf]
    show countMatches (keyFilter f dv)
      (updateOne (recordFilter c ds) (buildRecord c params pd ds) s) ≤ 1
    rw [countMatches_updateOne_other _ _ _ _ hn hx]
    exact hmo f dv

theorem runOps_reconcile_preserves_atMostOne (c : County) (params : List String)
    (pd : ParamData) (dates : List String)
    (hp : ∀ p ∈ params, pyLower p ≠ "fips_code" ∧ pyLower p ≠ "date") :
    ∀ (s : List Doc), atMostOnePerKey s →
      atMostOnePerKey (runOps (reconcileOps c params pd dates) s) := by
  induction dates with
  | nil => intro s hmo; exact hmo
  | cons ds rest ih =>
    intro s hmo
    rw [reconcileOps_cons, runOps_cons]
    exact ih _ (updateOne_preserves_atMostOne c params pd ds s hp hmo)

/-- C4: the reconcile-and-upsert step is idempotent — running it twice
with identical upstream data (well-formed distinct date keys, parameter
codes not clashing with the key fields, as in any real response) yields
a stored state identical to running it once, from any initial store —
and it preserves the at-most-one-record-per-(fips_code, date) invariant:
no duplicate key is ever created, because a matching document is updated
in place and insertion happens only when no document matches. -/
theorem c4_reconcile_idempotent :
    ∀ (c : County) (params : List String) (pd : ParamData) (dates : List String) (s : List Doc),
      (∀ p ∈ params, pyLower p ≠ "fips_code" ∧ pyLower p ≠ "date") →
      dates.all isValidYmd = true → dates.Nodup →
      (reconcileLoop c params pd dates ((reconcileLoop c params pd dates s).1)).1
        = (reconcileLoop c params pd dates s).1
      ∧ (atMostOnePerKey s → atMostOnePerKey ((reconcileLoop c params pd dates s).1)) := by
  intro c params pd dates s hp hv hnd
  have hgood := goodOp_reconcileOps c params pd dates hp
  have hpair := pairwise_indep_reconcileOps c params pd dates hp hnd
  have h1 := reconcileLoop_eq_runOps c params pd dates s hv
  have h2 := reconcileLoop_eq_runOps c params pd dates
    (runOps (reconcileOps c params pd dates) s) hv
  constructor
  · rw [h1]
    show (reconcileLoop c params pd dates (runOps (reconcileOps c params pd dates) s)).1
      = runOps (reconcileOps c params pd dates) s
    rw [h2]
    exact runOps_idem _ _ hgood hpair
  · intro hmo
    rw [h1]
    exact runOps_reconcile_preserves_atMostOne c params pd dates hp s hmo

/-- Witness for C4: the concrete reconcile of `pdSingle` run twice from
the empty store. -/
theorem c4_reconcile_idempotent_witness :
    (reconcileLoop countyA ["T2M"] pdSingle ["20230601"]
        ((reconcileLoop countyA ["T2M"] pdSingle ["20230601"] []).1)).1
      = (reconcileLoop countyA ["T2M"] pdSingle ["20230601"] []).1
    ∧ atMostOnePerKey ((reconcileLoop countyA ["T2M"] pdSingle ["20230601"] []).1) := by
  have h := c4_reconcile_idempotent countyA ["T2M"] pdSingle ["20230601"] []
    (by decide) (by decide) (by decide)
  exact ⟨h.1, h.2 (fun f dv => Nat.zero_le 1)⟩

theorem count_map_zero (c : County) (params : List String) (pd : ParamData)
    (hp : ∀ p ∈ params, pyLower p ≠ "date") :
    ∀ (dates : List String) (ds : String), ds ∉ dates →
      countMatches (keyFilter c.fips_code (BVal.date ds))
        ((reconcileOps c params pd dates).map (fun op => applyFields op.2 op.1)) = 0 := by
  intro dates
  induction dates with
  | nil => intro ds _; rfl
  | cons e rest ih =>
    intro ds h
    rw [reconcileOps_cons]
    simp only [List.map_cons]
    rw [countMatches_cons]
    have hne : e ≠ ds := fun hh => h (hh ▸ List.mem_cons_self _ _)
    have hz : docMatches (keyFilter c.fips_code (BVal.date ds))
        (applyFields (buildRecord c params pd e) (recordFilter c e)) = false :=
      docMatches_neq_date_buildRecord c params pd e ds (recordFilter c e) hp hne
    have h2 : ds ∉ rest := fun hh => h (List.mem_cons_of_mem _ hh)
    rw [hz, ih ds h2]
    simp

theorem count_map_one (c : County) (params : List String) (pd : ParamData)
    (hp : ∀ p ∈ params, pyLower p ≠ "fips_code" ∧ pyLower p ≠ "date") :
    ∀ (dates : List String) (ds : String), dates.Nodup → ds ∈ dates →
      countMatches (keyFilter c.fips_code (BVal.date ds))
        ((reconcileOps c params pd dates).map (fun op => applyFields op.2 op.1)) = 1 := by
  intro dates
  induction dates with
  | nil => intro ds _ h; cases h
  | cons e rest ih =>
    intro ds hnd hmem
    rw [reconcileOps_cons]
    simp only [List.map_cons]
    rw [countMatches_cons]
    rcases List.mem_cons.mp hmem with rfl | hmem2
    · have h1 : docMatches (keyFilter c.fips_code (BVal.date ds))
          (applyFields (buildRecord c params pd ds) (recordFilter c ds)) = true :=
        docMatches_self_buildRecord c params pd ds (recordFilter c ds) hp
      have h2 : ds ∉ rest := (List.nodup_cons.mp hnd).1
      rw [h1, count_map_zero c params pd (fun p h => (hp p h).2) rest ds h2]
      simp
    · have hne : e ≠ ds := fun hh => (List.nodup_cons.mp hnd).1 (hh ▸ hmem2)
      have hz : docMatches (keyFilter c.fips_code (BVal.date ds))
          (applyFields (buildRecord c params pd e) (recordFilter c e)) = false :=
        docMatches_neq_date_buildRecord c params pd e ds (recordFilter c e)
          (fun p h => (hp p h).2) hne
      rw [hz, ih ds (List.nodup_cons.mp hnd).2 hmem2]
      simp

/-- C7 counterexample: the claim says one record is emitted per
distinct date in the union of the dates under any parameter.  With
`pdTwo`, whose first parameter has only 2023-06-01 while the second
also has 2023-06-02, the union contains "20230602" but the loop (which
iterates the first parameter's keys only) writes a single record and no
record for 2023-06-02 exists. -/
theorem c7_counterexample :
    "20230602" ∈ unionDates pdTwo
    ∧ (reconcileLoop countyA ["A", "B"] pdTwo (firstDates pdTwo) []).1.length = 1
    ∧ countMatches (keyFilter countyA.fips_code (BVal.date "20230602"))
        ((reconcileLoop countyA ["A", "B"] pdTwo (firstDates pdTwo) []).1) = 0 := by
  refine ⟨by decide, by decide, by decide⟩

/-- C7 (amended): the reconciler emits exactly one record per distinct
date present under the FIRST parameter of the response table (the code
iterates `parameters_data[next(iter(parameters_data))].keys()`); this
equals the union only when all parameters share the same date set.
From an empty store the result is exactly the list of inserted
documents, one per first-parameter date, and each (fips_code, date) key
occurs exactly once. -/
theorem c7_first_param_dates :
    ∀ (c : County) (params : List String) (pd : ParamData),
      (∀ p ∈ params, pyLower p ≠ "fips_code" ∧ pyLower p ≠ "date") →
      (firstDates pd).all isValidYmd = true →
      (firstDates pd).Nodup →
      (reconcileLoop c params pd (firstDates pd) []).1
        = (firstDates pd).map
            (fun ds => applyFields (buildRecord c params pd ds) (recordFilter c ds))
      ∧ (∀ ds ∈ firstDates pd,
          countMatches (keyFilter c.fips_code (BVal.date ds))
            ((reconcileLoop c params pd (firstDates pd) []).1) = 1) := by
  intro c params pd hp hv hnd
  have hpair := pairwise_indep_reconcileOps c params pd (firstDates pd) hp hnd
  have h1 := reconcileLoop_eq_runOps c params pd (firstDates pd) [] hv
  have hfresh := runOps_fresh (reconcileOps c params pd (firstDates pd)) []
    (fun d hd => absurd hd (List.not_mem_nil d)) hpair
  constructor
  · rw [h1]
    show runOps (reconcileOps c params pd (firstDates pd)) [] = _
    rw [hfresh]
    simp [reconcileOps, List.map_map, Function.comp]
  · intro ds hds
    rw [h1]
    show countMatches (keyFilter c.fips_code (BVal.date ds))
      (runOps (reconcileOps c params pd (firstDates pd)) []) = 1
    rw [hfresh]
    simp only [List.nil_append]
    exact count_map_one c params pd hp (firstDates pd) ds hnd hds

/-- Witness for C7 (amended): the concrete single-parameter response
`pdSingle` yields exactly its one dated record. -/
theorem c7_first_param_dates_witness :
    (reconcileLoop countyA ["T2M"] pdSingle (firstDates pdSingle) []).1
      = (firstDates pdSingle).map
          (fun ds => applyFields (buildRecord countyA ["T2M"] pdSingle ds)
            (recordFilter countyA ds)) :=
  (c7_first_param_dates countyA ["T2M"] pdSingle (by decide) (by decide) (by decide)).1

end NPMTI
